import Mathlib

/-!
Verification development for the HRD operations dashboard (`src/app.py`).

The script loads one spreadsheet into a pandas DataFrame, validates and
normalizes columns, filters by four sidebar facets, and aggregates the
filtered table by month / category / course type / manager.

We embed the data pipeline shallowly:
* a DataFrame cell is `Cell` (string, finite rational number, or NaN —
  pandas missing values read as NaN floats; pandas `inf` from division by
  zero is likewise collapsed into `Cell.nan`, since the claims only need
  "not a finite reported number");
* a DataFrame is `DFrame`: a column-name list plus rows, each row a
  function from column name to `Cell`;
* `pd.to_numeric(errors := coerce)` is `toNumericCell` over a simple
  integer-literal parser (the only numeric strings the pipeline meets);
* `groupby(key).agg(dict).reset_index()` is `groupbyAgg`, whose group keys
  are the distinct observed non-NaN values sorted ascending (pandas defaults
  `sort=True` and `dropna=True`, so rows whose key cell is NaN are dropped
  from the aggregation; python `sorted` compares strings lexicographically,
  modelled by sorting on the `str()` rendering of a cell).
-/

/-- A pandas cell: a string, a finite number, or NaN (missing value,
or a non-finite float such as the result of dividing by zero). -/
inductive Cell where
  | str : String → Cell
  | num : ℚ → Cell
  | nan : Cell
deriving DecidableEq, Repr

/-- Python `str()` of a cell, as used by `convert_month` and by `sorted`. -/
def pyStr : Cell → String
  | .str s => s
  | .num q => toString q
  | .nan => "nan"

/-- A DataFrame: the list of column names plus the rows, each row mapping a
column name to its cell. -/
structure DFrame where
  cols : List String
  rows : List (String → Cell)

/-- The cells of one column, top to bottom (`df[c]`). -/
def colCells (df : DFrame) (c : String) : List Cell :=
  df.rows.map (fun r => r c)

/-- `df[c] = <rowwise expression>`: set column `c` from each row, appending
`c` to the column list when absent (pandas column assignment). -/
def DFrame.setCol (df : DFrame) (c : String) (f : (String → Cell) → Cell) : DFrame :=
  { cols := if c ∈ df.cols then df.cols else df.cols ++ [c],
    rows := df.rows.map (fun r => fun c2 => if c2 = c then f r else r c2) }

/-- `re.sub` with pattern `[^0-9]`: keep only the ASCII digits of a string. -/
def extractDigits (s : String) : String :=
  String.mk (s.toList.filter Char.isDigit)

/-- Python `str.zfill(2)`: left-pad with zeros to width two. -/
def zfill2 (s : String) : String :=
  if s.length < 2 then String.mk (List.replicate (2 - s.length) '0') ++ s else s

/-- `convert_month` from `load_data` (src/app.py lines 36-45): extract the
digits of `str(month_str)`; when nonempty, return `"2024-" ++ zfill2 digits`,
otherwise the default `"2024-01"` (the `except` branch also returns the
default; the embedded operations are total, so it never fires here). -/
def convert_month (month_str : Cell) : String :=
  let month_num := extractDigits (pyStr month_str)
  if month_num ≠ "" then "2024-" ++ zfill2 month_num else "2024-01"

/-- Value of a digit list read as a base-10 natural number. -/
def digitsToNat (l : List Char) : ℕ :=
  l.foldl (fun n c => 10 * n + (c.toNat - Char.toNat '0')) 0

/-- Model of the numeric-string parse inside `pd.to_numeric`: an optional
minus sign followed by a nonempty digit run; anything else fails.  (The
pipeline only ever meets integer literals.) -/
def parseNumeric (s : String) : Option ℚ :=
  match s.toList with
  | [] => none
  | '-' :: rest =>
      if rest ≠ [] ∧ rest.all Char.isDigit then some (-(digitsToNat rest : ℚ)) else none
  | l => if l.all Char.isDigit then some ((digitsToNat l : ℚ)) else none

/-- `pd.to_numeric(x, errors := coerce)` on one cell: numbers pass through,
parseable numeric strings convert, everything else (incl. NaN) becomes NaN. -/
def toNumericCell : Cell → Cell
  | .num q => .num q
  | .nan => .nan
  | .str s => match parseNumeric s with
      | some q => .num q
      | none => .nan

/-- `.fillna(0)` on one cell. -/
def fillna0 : Cell → Cell
  | .nan => .num 0
  | c => c

/-- `pd.to_numeric(x, errors := coerce).fillna(0)` on one cell. -/
def coerce0 (c : Cell) : Cell := fillna0 (toNumericCell c)

/-- The required columns of `load_data` (src/app.py lines 27-28):
start-month, category-1, course-type, manager, course-name,
attendance-count, completion-count. -/
def required_columns : List String :=
  ["시작월", "카테고리1", "과정유형", "담당자", "과정명", "참석인원", "이수인원"]

/-- The optional columns of `load_data` with their defaults
(src/app.py lines 54-59). -/
def optional_columns : List (String × ℚ) :=
  [("과정만족도", 0), ("현업적용율", 0), ("교육일수", 0), ("교육시간", 0)]

/-- One optional-column step (src/app.py lines 61-65): a present column is
coerced numeric and zero-filled, an absent one is injected with its default. -/
def optionalStep (d : DFrame) (p : String × ℚ) : DFrame :=
  if p.1 ∈ d.cols then d.setCol p.1 (fun r => coerce0 (r p.1))
  else d.setCol p.1 (fun _ => .num p.2)

/-- The successful branch of `load_data` (src/app.py lines 35-67): normalize
the start month, coerce the two count columns, then process the optional
columns in order. -/
def loadBody (src : DFrame) : DFrame :=
  optional_columns.foldl optionalStep
    (((src.setCol "시작월" (fun r => .str (convert_month (r "시작월")))).setCol
        "참석인원" (fun r => coerce0 (r "참석인원"))).setCol
      "이수인원" (fun r => coerce0 (r "이수인원")))

/-- `load_data` (src/app.py lines 17-73), after the spreadsheet has been read
into `src`: validate the required columns (returning the list of missing
names as the fatal error, `st.error` plus `return None`), otherwise run the
normalization body. -/
def load_data (src : DFrame) : Except (List String) DFrame :=
  if required_columns.filter (fun c => c ∉ src.cols) ≠ [] then
    .error (required_columns.filter (fun c => c ∉ src.cols))
  else .ok (loadBody src)

/-! ## Sidebar filter (src/app.py lines 84-109) -/

/-- The sidebar selection: each facet is either `none` ("전체", i.e. no
filter) or `some v` for an observed value `v` of that facet. -/
structure Selection where
  month : Option Cell
  category1 : Option Cell
  courseType : Option Cell
  manager : Option Cell

/-- One `if selected != "전체": filtered = filtered[filtered[c] == selected]`
step. -/
def facetFilter (df : DFrame) (c : String) : Option Cell → DFrame
  | none => df
  | some v => { df with rows := df.rows.filter (fun r => r c = v) }

/-- `filtered_df` (src/app.py lines 100-109): start from `df.copy()` (the
copy is identity under value semantics) and apply the four facet filters in
order. -/
def filtered_df (df : DFrame) (s : Selection) : DFrame :=
  facetFilter (facetFilter (facetFilter (facetFilter df "시작월" s.month)
    "카테고리1" s.category1) "과정유형" s.courseType) "담당자" s.manager

/-! ## Group-by aggregation -/

/-- Accumulator loop of `uniqueFirst`: append each value not seen yet. -/
def uniqueAux {α : Type} [DecidableEq α] : List α → List α → List α
  | acc, [] => acc
  | acc, a :: t => if a ∈ acc then uniqueAux acc t else uniqueAux (acc ++ [a]) t

/-- pandas `Series.unique()`: the distinct values in first-appearance
order. -/
def uniqueFirst {α : Type} [DecidableEq α] (l : List α) : List α :=
  uniqueAux [] l

/-- Lexicographic comparison of character lists by code point, as python
compares strings. -/
def charListLe : List Char → List Char → Bool
  | [], _ => true
  | _ :: _, [] => false
  | a :: as, b :: bs =>
      if a.toNat < b.toNat then true
      else if b.toNat < a.toNat then false
      else charListLe as bs

/-- Ordering of cells used by python `sorted` and by `groupby(sort=True)`:
lexicographic on the `str()` rendering (the pipeline's keys are strings). -/
def cellLE (a b : Cell) : Prop :=
  charListLe (pyStr a).toList (pyStr b).toList = true

instance : DecidableRel cellLE := fun a b =>
  inferInstanceAs (Decidable (charListLe (pyStr a).toList (pyStr b).toList = true))

/-- python `sorted`. -/
def sortCells (l : List Cell) : List Cell := List.insertionSort cellLE l

/-- The group keys that `groupby(c)` emits: the distinct observed non-NaN
values of column `c`, sorted ascending (pandas defaults `sort=True` and
`dropna=True` — rows whose key cell is NaN belong to no group). -/
def groupKeys (df : DFrame) (c : String) : List Cell :=
  sortCells (uniqueFirst ((colCells df c).filter (fun v => v ≠ Cell.nan)))

/-- The rows of the group for key `k` of column `c`. -/
def groupRows (df : DFrame) (c : String) (k : Cell) : List (String → Cell) :=
  df.rows.filter (fun r => r c = k)


/-- The numeric content of a cell, `none` for NaN and strings (pandas
treats both as missing when summing or averaging). -/
def cellNum? : Cell → Option ℚ
  | .num q => some q
  | _ => none

/-- pandas `sum()` over a column: NaN values are skipped, strings do not
occur in the summed columns; an all-NaN or empty column sums to 0. -/
def cellsSum (l : List Cell) : ℚ :=
  (l.filterMap cellNum?).sum

/-- The numeric value of a cell with non-numbers read as 0; `cellsSum`
equals the sum of this over the column. -/
def cellVal0 : Cell → ℚ
  | .num q => q
  | _ => 0

/-- pandas `mean()` over a column: NaN-skipping; NaN when no value
remains. -/
def cellsMean (l : List Cell) : Cell :=
  let v := l.filterMap cellNum?
  if v.length = 0 then .nan else .num (v.sum / v.length)

/-- pandas `count()` over a column: the number of non-NaN entries. -/
def cellsCount (l : List Cell) : ℕ :=
  (l.filter (fun c => c ≠ .nan)).length

/-- The sum of metric `m` (non-numbers as 0) over the rows whose `key` cell
is not NaN — exactly the rows that `groupby(key)` distributes into groups
under its `dropna=True` default. -/
def nonNaNKeySum (df : DFrame) (key m : String) : ℚ :=
  ((df.rows.filter (fun r => r key ≠ Cell.nan)).map (fun r => cellVal0 (r m))).sum

/-- The aggregation functions appearing in the `.agg({...})` dicts. -/
inductive AggFun where
  | sum : AggFun
  | mean : AggFun
  | count : AggFun
deriving DecidableEq, Repr

/-- Apply one aggregation function to the cells of a column restricted to a
group. -/
def applyAgg : AggFun → List Cell → Cell
  | .sum, l => .num (cellsSum l)
  | .mean, l => cellsMean l
  | .count, l => .num ((cellsCount l : ℚ))

/-- `df.groupby(key).agg(aggs).reset_index()`: one output row per distinct
observed key (ascending), with the key as a column and one column per
aggregated metric.  (A column outside `key :: aggs` does not exist in the
result; pandas would raise on access, our rows answer NaN there.) -/
def groupbyAgg (df : DFrame) (key : String) (aggs : List (String × AggFun)) : DFrame :=
  { cols := key :: aggs.map Prod.fst,
    rows := (groupKeys df key).map (fun k => fun c =>
      if c = key then k
      else match List.lookup c aggs with
        | some a => applyAgg a ((groupRows df key k).map (fun r => r c))
        | none => .nan) }

/-! ## The dashboard body (src/app.py lines 84-276) -/

/-- The overall KPI `completion_rate` (src/app.py line 125):
`sum(이수인원) / sum(참석인원) * 100` when the attendance sum is `> 0`,
otherwise the literal 0. -/
def completion_rate (fdf : DFrame) : ℚ :=
  if cellsSum (colCells fdf "참석인원") > 0 then
    cellsSum (colCells fdf "이수인원") / cellsSum (colCells fdf "참석인원") * 100
  else 0

/-- `monthly_data` (src/app.py lines 144-149). -/
def monthly_data (fdf : DFrame) : DFrame :=
  groupbyAgg fdf "시작월"
    [("참석인원", .sum), ("이수인원", .sum), ("과정만족도", .mean), ("현업적용율", .mean)]

/-- The 5-point-scale performance metrics (src/app.py line 168). -/
def score_5 : List String := ["과정만족도", "교육내용", "교육방법"]

/-- The percentage-scale performance metrics (src/app.py line 169). -/
def score_pct : List String := ["긍정응답율", "과정NPS", "현업적용"]

/-- `성과지표 = score_5 + score_pct` (src/app.py line 170). -/
def perf_cols : List String := score_5 ++ score_pct

/-- One iteration of the loop at src/app.py lines 171-174: inject the column
as NaN when absent, then re-coerce it numeric WITHOUT zero-filling. -/
def perfStep (d : DFrame) (c : String) : DFrame :=
  let d1 := if c ∈ d.cols then d else d.setCol c (fun _ => .nan)
  d1.setCol c (fun r => toNumericCell (r c))

/-- The loop at src/app.py lines 171-174, which updates `filtered_df` in
place: every view from section 3 on sees this frame. -/
def addPerf (fdf : DFrame) : DFrame :=
  perf_cols.foldl perfStep fdf

/-- `category_data` (src/app.py lines 177-186), computed from the
perf-augmented filtered frame. -/
def category_data (fdf2 : DFrame) : DFrame :=
  groupbyAgg fdf2 "카테고리1"
    [("참석인원", .sum), ("이수인원", .sum), ("과정만족도", .mean), ("교육내용", .mean),
     ("교육방법", .mean), ("긍정응답율", .mean), ("과정NPS", .mean), ("현업적용", .mean)]

/-- Rowwise `이수인원 / 참석인원 * 100` as pandas evaluates it on float
columns (src/app.py lines 243 and 268): no zero guard, a zero denominator
yields NaN (0/0) or ±inf (x/0), collapsed here into `Cell.nan` — in either
case not a finite number and in particular not 0. -/
def rateCell (c a : Cell) : Cell :=
  match c, a with
  | .num cv, .num av => if av = 0 then .nan else .num (cv / av * 100)
  | _, _ => .nan

/-- `course_type_data` with its derived `수료율` column
(src/app.py lines 230-243). -/
def course_type_data (fdf2 : DFrame) : DFrame :=
  (groupbyAgg fdf2 "과정유형"
    [("참석인원", .sum), ("이수인원", .sum), ("과정만족도", .mean), ("현업적용율", .mean)]).setCol
    "수료율" (fun r => rateCell (r "이수인원") (r "참석인원"))

/-- `manager_data` with its derived `수료율` column
(src/app.py lines 253-268). -/
def manager_data (fdf2 : DFrame) : DFrame :=
  (groupbyAgg fdf2 "담당자"
    [("과정명", .count), ("참석인원", .sum), ("이수인원", .sum), ("과정만족도", .mean),
     ("현업적용율", .mean)]).setCol
    "수료율" (fun r => rateCell (r "이수인원") (r "참석인원"))

/-- The number of non-NaN entries of a column (`Series.notna().sum()`). -/
def notnaCount (l : List Cell) : ℕ :=
  (l.filter (fun c => c ≠ .nan)).length

/-- Outcome of one iteration of the 5-point-scale chart loop. -/
inductive ChartResult where
  | chart : ChartResult
  | info : ChartResult
  | nothing : ChartResult
deriving DecidableEq, Repr

/-- The 5-point-scale chart decision (src/app.py lines 195-211): when the
column exists, draw the bar chart iff it has a non-NaN entry and its
(NaN-skipping) sum is positive, else show the "데이터가 없습니다" info
message. -/
def score5_result (cd : DFrame) (c : String) : ChartResult :=
  if c ∈ cd.cols then
    if notnaCount (colCells cd c) > 0 ∧ cellsSum (colCells cd c) > 0 then .chart
    else .info
  else .nothing

/-- Everything the script derives after a successful load, in source order. -/
structure Dashboard where
  months : List Cell
  categories1 : List Cell
  course_types : List Cell
  managers : List Cell
  filtered : DFrame
  kpiCompletionRate : ℚ
  monthly : DFrame
  filteredFinal : DFrame
  category : DFrame
  courseType : DFrame
  manager : DFrame

/-- The whole script after `load_data` (src/app.py lines 76-276): on a load
error the script calls `st.stop()` before any facet domain, filter or
aggregation is computed (`none`); otherwise the facet domains come from the
FULL loaded table, the filter runs, `monthly_data` is computed from the
filtered frame, the perf-metric loop then mutates the filtered frame, and
the remaining aggregations (and the final `st.dataframe`) use the mutated
frame. -/
def run_dashboard (src : DFrame) (s : Selection) : Option Dashboard :=
  match load_data src with
  | .error _ => none
  | .ok df =>
      let fdf := filtered_df df s
      let fdf2 := addPerf fdf
      some
        { months := sortCells (uniqueFirst (colCells df "시작월")),
          categories1 := sortCells (uniqueFirst (colCells df "카테고리1")),
          course_types := sortCells (uniqueFirst (colCells df "과정유형")),
          managers := sortCells (uniqueFirst (colCells df "담당자")),
          filtered := fdf,
          kpiCompletionRate := completion_rate fdf,
          monthly := monthly_data fdf,
          filteredFinal := fdf2,
          category := category_data fdf2,
          courseType := course_type_data fdf2,
          manager := manager_data fdf2 }

/-! ## Concrete tables and selections for evaluating the pipeline -/

/-- A row holding just the seven required columns (other columns read as
missing). -/
def mkRow (m cat ct mgr nm att comp : Cell) : String → Cell := fun c =>
  if c = "시작월" then m
  else if c = "카테고리1" then cat
  else if c = "과정유형" then ct
  else if c = "담당자" then mgr
  else if c = "과정명" then nm
  else if c = "참석인원" then att
  else if c = "이수인원" then comp
  else .nan

/-- A two-row source table with only the required columns; the second row
has a non-numeric attendance entry and a missing completion entry. -/
def srcA : DFrame :=
  { cols := required_columns,
    rows :=
      [mkRow (.str "03월") (.str "A") (.str "집합") (.str "b") (.str "X") (.str "12") (.str "10"),
       mkRow (.str "04월") (.str "B") (.str "온라인") (.str "a") (.str "Y") (.str "abc") .nan] }

/-- A source table whose attendance entry is the negative number -5. -/
def srcC : DFrame :=
  { cols := required_columns,
    rows :=
      [mkRow (.str "03월") (.str "A") (.str "집합") (.str "b") (.str "X") (.num (-5)) (.num 3)] }

/-- A source table missing five of the seven required columns. -/
def srcH : DFrame :=
  { cols := ["시작월", "카테고리1"], rows := [] }

/-- A small already-loaded-shape table: managers appear in the order
"b", "a", and both rows have attendance 0 and completion 0. -/
def fdfB : DFrame :=
  { cols := required_columns,
    rows :=
      [mkRow (.str "2024-03") (.str "A") (.str "집합") (.str "b") (.str "X") (.num 0) (.num 0),
       mkRow (.str "2024-04") (.str "B") (.str "온라인") (.str "a") (.str "Y") (.num 0) (.num 0)] }

/-- A loaded-shape table whose second row has a blank (NaN) manager cell:
attendance 12 for manager "a", attendance 7 on the NaN-manager row. -/
def fdfN : DFrame :=
  { cols := required_columns,
    rows :=
      [mkRow (.str "2024-03") (.str "A") (.str "집합") (.str "a") (.str "X") (.num 12) (.num 5),
       mkRow (.str "2024-04") (.str "B") (.str "온라인") .nan (.str "Y") (.num 7) (.num 2)] }

/-- All four facets set to "전체". -/
def selAll : Selection := ⟨none, none, none, none⟩

/-- Month facet set to "2024-03", the rest "전체". -/
def selMonth : Selection := ⟨some (.str "2024-03"), none, none, none⟩

/-- The twelve well-formed month strings `2024-01` .. `2024-12`. -/
def monthPattern : List String :=
  ["2024-01", "2024-02", "2024-03", "2024-04", "2024-05", "2024-06",
   "2024-07", "2024-08", "2024-09", "2024-10", "2024-11", "2024-12"]

/-- The digit strings of at most two characters denoting a month 1..12. -/
def smallMonthStrs : List String :=
  ["1", "2", "3", "4", "5", "6", "7", "8", "9",
   "01", "02", "03", "04", "05", "06", "07", "08", "09", "10", "11", "12"]

/-! ## Basic lemmas about the embedding -/

theorem charListLe_total : ∀ (x y : List Char),
    charListLe x y = true ∨ charListLe y x = true := by
  intro x
  induction x with
  | nil => intro y; left; rfl
  | cons a as ih =>
      intro y
      cases y with
      | nil => right; rfl
      | cons b bs =>
          rcases Nat.lt_trichotomy a.toNat b.toNat with h | h | h
          · left; simp [charListLe, h]
          · have hab : ¬ a.toNat < b.toNat := by omega
            have hba : ¬ b.toNat < a.toNat := by omega
            rcases ih bs with h2 | h2
            · left; simp [charListLe, hab, hba, h2]
            · right; simp [charListLe, hab, hba, h2]
          · right; simp [charListLe, h]

theorem charListLe_trans : ∀ (x y z : List Char),
    charListLe x y = true → charListLe y z = true → charListLe x z = true := by
  intro x
  induction x with
  | nil => intro y z _ _; rfl
  | cons a as ih =>
      intro y z h1 h2
      cases y with
      | nil => exact absurd h1 (by simp [charListLe])
      | cons b bs =>
          cases z with
          | nil => exact absurd h2 (by simp [charListLe])
          | cons c cs =>
              by_cases hab : a.toNat < b.toNat <;> by_cases hbc : b.toNat < c.toNat
              · have hac : a.toNat < c.toNat := by omega
                simp [charListLe, hac]
              · have hcb : ¬ c.toNat < b.toNat := by
                  intro hcb
                  rw [charListLe, if_neg hbc, if_pos hcb] at h2
                  exact Bool.noConfusion h2
                have hac : a.toNat < c.toNat := by omega
                simp [charListLe, hac]
              · have hba : ¬ b.toNat < a.toNat := by
                  intro hba
                  rw [charListLe, if_neg hab, if_pos hba] at h1
                  exact Bool.noConfusion h1
                have hac : a.toNat < c.toNat := by omega
                simp [charListLe, hac]
              · have hba : ¬ b.toNat < a.toNat := by
                  intro hba
                  rw [charListLe, if_neg hab, if_pos hba] at h1
                  exact Bool.noConfusion h1
                have hcb : ¬ c.toNat < b.toNat := by
                  intro hcb
                  rw [charListLe, if_neg hbc, if_pos hcb] at h2
                  exact Bool.noConfusion h2
                have hac : ¬ a.toNat < c.toNat := by omega
                have hca : ¬ c.toNat < a.toNat := by omega
                rw [charListLe, if_neg hab, if_neg hba] at h1
                rw [charListLe, if_neg hbc, if_neg hcb] at h2
                rw [charListLe, if_neg hac, if_neg hca]
                exact ih bs cs h1 h2

instance : IsTotal Cell cellLE :=
  ⟨fun a b => charListLe_total (pyStr a).toList (pyStr b).toList⟩

instance : IsTrans Cell cellLE :=
  ⟨fun _ _ _ h1 h2 => charListLe_trans _ _ _ h1 h2⟩

theorem colCells_setCol_ne (d : DFrame) {c m : String} (f : (String → Cell) → Cell)
    (h : m ≠ c) : colCells (d.setCol c f) m = colCells d m := by
  simp [colCells, DFrame.setCol, h]

theorem colCells_setCol_eq (d : DFrame) (c : String) (f : (String → Cell) → Cell) :
    colCells (d.setCol c f) c = d.rows.map f := by
  simp [colCells, DFrame.setCol]

theorem setCol_rows_length (d : DFrame) (c : String) (f : (String → Cell) → Cell) :
    (d.setCol c f).rows.length = d.rows.length := by
  simp [DFrame.setCol]

theorem mem_setCol_cols {d : DFrame} {c m : String} (f : (String → Cell) → Cell) :
    m ∈ (d.setCol c f).cols ↔ m ∈ d.cols ∨ m = c := by
  by_cases h : c ∈ d.cols
  · simp only [DFrame.setCol, if_pos h]
    constructor
    · exact fun hm => Or.inl hm
    · rintro (hm | rfl)
      · exact hm
      · exact h
  · simp [DFrame.setCol, if_neg h]

theorem setCol_cols_of_mem {d : DFrame} {c : String} (f : (String → Cell) → Cell)
    (h : c ∈ d.cols) : (d.setCol c f).cols = d.cols := by
  simp [DFrame.setCol, if_pos h]

theorem setCol_cols_of_not_mem {d : DFrame} {c : String} (f : (String → Cell) → Cell)
    (h : c ∉ d.cols) : (d.setCol c f).cols = d.cols ++ [c] := by
  simp [DFrame.setCol, if_neg h]

theorem mem_uniqueAux {α : Type} [DecidableEq α] :
    ∀ (l acc : List α) (b : α), b ∈ uniqueAux acc l ↔ b ∈ acc ∨ b ∈ l := by
  intro l
  induction l with
  | nil => intro acc b; simp [uniqueAux]
  | cons a t ih =>
      intro acc b
      rw [uniqueAux]
      by_cases ha : a ∈ acc
      · rw [if_pos ha, ih]
        simp only [List.mem_cons]
        constructor
        · rintro (h | h)
          · exact Or.inl h
          · exact Or.inr (Or.inr h)
        · rintro (h | h | h)
          · exact Or.inl h
          · exact Or.inl (h ▸ ha)
          · exact Or.inr h
      · rw [if_neg ha, ih]
        simp only [List.mem_append, List.mem_singleton, List.mem_cons]
        tauto

theorem mem_uniqueFirst {α : Type} [DecidableEq α] (l : List α) (b : α) :
    b ∈ uniqueFirst l ↔ b ∈ l := by
  rw [uniqueFirst, mem_uniqueAux]
  simp

theorem nodup_uniqueAux {α : Type} [DecidableEq α] :
    ∀ (l acc : List α), acc.Nodup → (uniqueAux acc l).Nodup := by
  intro l
  induction l with
  | nil => intro acc h; exact h
  | cons a t ih =>
      intro acc h
      rw [uniqueAux]
      by_cases ha : a ∈ acc
      · rw [if_pos ha]
        exact ih acc h
      · rw [if_neg ha]
        refine ih _ (List.Nodup.append h (List.nodup_singleton a) ?_)
        intro x hx hx2
        rw [List.mem_singleton] at hx2
        exact ha (hx2 ▸ hx)

theorem nodup_uniqueFirst {α : Type} [DecidableEq α] (l : List α) :
    (uniqueFirst l).Nodup :=
  nodup_uniqueAux l [] List.nodup_nil

theorem sortCells_perm (l : List Cell) : List.Perm (sortCells l) l :=
  List.perm_insertionSort cellLE l

theorem sortCells_sorted (l : List Cell) : List.Sorted cellLE (sortCells l) :=
  List.sorted_insertionSort cellLE l

theorem mem_groupKeys (df : DFrame) (c : String) (k : Cell) :
    k ∈ groupKeys df c ↔ (k ∈ colCells df c ∧ k ≠ Cell.nan) := by
  rw [groupKeys, (sortCells_perm _).mem_iff, mem_uniqueFirst]
  simp [List.mem_filter]

theorem nodup_groupKeys (df : DFrame) (c : String) : (groupKeys df c).Nodup :=
  ((sortCells_perm _).nodup_iff).mpr (nodup_uniqueFirst _)

theorem sorted_groupKeys (df : DFrame) (c : String) :
    List.Sorted cellLE (groupKeys df c) := sortCells_sorted _

/-! ## Sums of group sums -/

theorem sum_map_filter_add {α : Type} (p : α → Bool) (val : α → ℚ) (l : List α) :
    ((l.filter p).map val).sum + ((l.filter (fun a => !(p a))).map val).sum
      = (l.map val).sum := by
  induction l with
  | nil => simp
  | cons a t ih =>
      cases h : p a <;> simp [List.filter_cons, h, ← ih] <;> ring

theorem filter_eq_filter_of_ne {α β : Type} [DecidableEq β] (key : α → β) {k k2 : β}
    (h : k2 ≠ k) (rows : List α) :
    (rows.filter (fun r => !(decide (key r = k)))).filter (fun r => key r = k2)
      = rows.filter (fun r => key r = k2) := by
  induction rows with
  | nil => rfl
  | cons r t ih =>
      by_cases hr : key r = k2
      · have hrk : key r ≠ k := by rw [hr]; exact h
        simp [List.filter_cons, hr, hrk, h, Ne.symm h, ih]
      · by_cases hrk : key r = k
        · simp [List.filter_cons, hr, hrk, h, Ne.symm h, ih]
        · simp [List.filter_cons, hr, hrk, h, Ne.symm h, ih]

theorem sum_groups {α β : Type} [DecidableEq β] (val : α → ℚ) (key : α → β) :
    ∀ (ks : List β) (rows : List α), ks.Nodup → (∀ r ∈ rows, key r ∈ ks) →
      (ks.map (fun k => ((rows.filter (fun r => key r = k)).map val).sum)).sum
        = (rows.map val).sum := by
  intro ks
  induction ks with
  | nil =>
      intro rows _ hcov
      cases rows with
      | nil => simp
      | cons r t => exact absurd (hcov r (by simp)) (by simp)
  | cons k ks ih =>
      intro rows hnd hcov
      have hk : k ∉ ks := (List.nodup_cons.mp hnd).1
      have hnd2 := (List.nodup_cons.mp hnd).2
      have hmap : ks.map (fun k2 => ((rows.filter (fun r => key r = k2)).map val).sum)
          = ks.map (fun k2 =>
              (((rows.filter (fun r => !(decide (key r = k)))).filter
                (fun r => key r = k2)).map val).sum) := by
        refine List.map_congr_left ?_
        intro k2 hk2
        have hne : k2 ≠ k := fun he => hk (he ▸ hk2)
        rw [filter_eq_filter_of_ne key hne]
      have hcov2 : ∀ r ∈ rows.filter (fun r => !(decide (key r = k))), key r ∈ ks := by
        intro r hr
        have h1 := List.mem_filter.mp hr
        have h2 : key r ≠ k := by simpa using h1.2
        have h3 := hcov r h1.1
        simpa [List.mem_cons, h2] using h3
      rw [List.map_cons, List.sum_cons, hmap,
        ih (rows.filter (fun r => !(decide (key r = k)))) hnd2 hcov2]
      exact sum_map_filter_add (fun r => decide (key r = k)) val rows

theorem colCells_groupbyAgg_key (df : DFrame) (key : String)
    (aggs : List (String × AggFun)) :
    colCells (groupbyAgg df key aggs) key = groupKeys df key := by
  simp [colCells, groupbyAgg, Function.comp_def]

theorem colCells_groupbyAgg_agg (df : DFrame) (key : String)
    (aggs : List (String × AggFun)) {m : String} {a : AggFun}
    (hne : m ≠ key) (hlk : List.lookup m aggs = some a) :
    colCells (groupbyAgg df key aggs) m
      = (groupKeys df key).map
          (fun k => applyAgg a ((groupRows df key k).map (fun r => r m))) := by
  simp [colCells, groupbyAgg, hne, hlk]

theorem cellsSum_eq_map_val (l : List Cell) : cellsSum l = (l.map cellVal0).sum := by
  induction l with
  | nil => rfl
  | cons c t ih =>
      simp only [cellsSum, List.filterMap_cons] at ih ⊢
      cases c <;> simp [cellNum?, cellVal0, ih]

theorem cellsSum_map_num {α : Type} (g : α → ℚ) (l : List α) :
    cellsSum (l.map (fun a => Cell.num (g a))) = (l.map g).sum := by
  induction l with
  | nil => rfl
  | cons a t ih =>
      simp only [cellsSum, List.map_cons, List.filterMap_cons, cellNum?,
        List.filterMap_map] at ih ⊢
      simp [ih]

/-! ## The optional-column loop and the perf-metric loop -/

theorem colCells_optionalStep_ne (d : DFrame) (p : String × ℚ) {m : String}
    (h : m ≠ p.1) : colCells (optionalStep d p) m = colCells d m := by
  unfold optionalStep
  by_cases hc : p.1 ∈ d.cols <;> simp [hc, colCells_setCol_ne _ _ h]

theorem foldl_optionalStep_colCells_ne :
    ∀ (ps : List (String × ℚ)) (d : DFrame) (m : String), (∀ p ∈ ps, p.1 ≠ m) →
      colCells (ps.foldl optionalStep d) m = colCells d m := by
  intro ps
  induction ps with
  | nil => intro d m _; rfl
  | cons p t ih =>
      intro d m h
      rw [List.foldl_cons, ih _ m (fun q hq => h q (List.mem_cons_of_mem p hq)),
        colCells_optionalStep_ne d p (Ne.symm (h p (List.mem_cons_self p t)))]

theorem mem_optionalStep_cols (d : DFrame) (p : String × ℚ) (m : String) :
    m ∈ (optionalStep d p).cols ↔ m ∈ d.cols ∨ m = p.1 := by
  unfold optionalStep
  by_cases hc : p.1 ∈ d.cols <;> simp [hc, mem_setCol_cols]

theorem foldl_optionalStep_mem_cols :
    ∀ (ps : List (String × ℚ)) (d : DFrame) (m : String),
      m ∈ (ps.foldl optionalStep d).cols ↔ m ∈ d.cols ∨ m ∈ ps.map Prod.fst := by
  intro ps
  induction ps with
  | nil => intro d m; simp
  | cons p t ih =>
      intro d m
      rw [List.foldl_cons, ih, mem_optionalStep_cols]
      simp only [List.map_cons, List.mem_cons]
      tauto

theorem colCells_optionalStep_absent (d : DFrame) (p : String × ℚ)
    (h : p.1 ∉ d.cols) :
    colCells (optionalStep d p) p.1 = (colCells d p.1).map (fun _ => Cell.num p.2) := by
  unfold optionalStep
  rw [if_neg h, colCells_setCol_eq, colCells, List.map_map]
  rfl

theorem colCells_optionalStep_present (d : DFrame) (p : String × ℚ)
    (h : p.1 ∈ d.cols) :
    colCells (optionalStep d p) p.1 = (colCells d p.1).map coerce0 := by
  unfold optionalStep
  rw [if_pos h, colCells_setCol_eq, colCells, List.map_map]
  rfl

theorem colCells_perfStep_ne (d : DFrame) (c : String) {m : String}
    (h : m ≠ c) : colCells (perfStep d c) m = colCells d m := by
  unfold perfStep
  by_cases hc : c ∈ d.cols <;> simp [hc, colCells_setCol_ne _ _ h]

theorem perfStep_rows_length (d : DFrame) (c : String) :
    (perfStep d c).rows.length = d.rows.length := by
  unfold perfStep
  by_cases hc : c ∈ d.cols <;> simp [hc, DFrame.setCol]

theorem mem_perfStep_cols (d : DFrame) (c m : String) :
    m ∈ (perfStep d c).cols ↔ m ∈ d.cols ∨ m = c := by
  unfold perfStep
  by_cases hc : c ∈ d.cols
  · simp only [if_pos hc, mem_setCol_cols]
  · simp only [if_neg hc, mem_setCol_cols]
    tauto

theorem perfStep_cols (d : DFrame) (c : String) :
    (perfStep d c).cols = if c ∈ d.cols then d.cols else d.cols ++ [c] := by
  unfold perfStep
  by_cases hc : c ∈ d.cols
  · rw [if_pos hc, if_pos hc, setCol_cols_of_mem _ hc]
  · rw [if_neg hc, if_neg hc, setCol_cols_of_mem, setCol_cols_of_not_mem _ hc]
    rw [setCol_cols_of_not_mem _ hc]
    simp

theorem colCells_perfStep_self (d : DFrame) (c : String) :
    colCells (perfStep d c) c
      = if c ∈ d.cols then (colCells d c).map toNumericCell
        else (colCells d c).map (fun _ => Cell.nan) := by
  unfold perfStep
  by_cases hc : c ∈ d.cols
  · rw [if_pos hc, if_pos hc, colCells_setCol_eq]
    simp [colCells, List.map_map, Function.comp_def]
  · rw [if_neg hc, if_neg hc, colCells_setCol_eq]
    simp [colCells, DFrame.setCol, List.map_map, Function.comp_def]
    exact Or.inr rfl

theorem foldl_perfStep_colCells_ne :
    ∀ (cs : List String) (d : DFrame) (m : String), m ∉ cs →
      colCells (cs.foldl perfStep d) m = colCells d m := by
  intro cs
  induction cs with
  | nil => intro d m _; rfl
  | cons c t ih =>
      intro d m h
      have h1 : m ∉ t := fun hm => h (List.mem_cons_of_mem c hm)
      have h2 : m ≠ c := fun hm => h (hm ▸ List.mem_cons_self c t)
      rw [List.foldl_cons, ih _ m h1, colCells_perfStep_ne d c h2]

theorem foldl_perfStep_rows_length :
    ∀ (cs : List String) (d : DFrame), (cs.foldl perfStep d).rows.length = d.rows.length := by
  intro cs
  induction cs with
  | nil => intro d; rfl
  | cons c t ih => intro d; rw [List.foldl_cons, ih, perfStep_rows_length]

theorem foldl_perfStep_mem_cols :
    ∀ (cs : List String) (d : DFrame) (m : String),
      m ∈ (cs.foldl perfStep d).cols ↔ m ∈ d.cols ∨ m ∈ cs := by
  intro cs
  induction cs with
  | nil => intro d m; simp
  | cons c t ih =>
      intro d m
      rw [List.foldl_cons, ih, mem_perfStep_cols]
      simp only [List.mem_cons]
      tauto

theorem foldl_perfStep_cols :
    ∀ (cs : List String) (d : DFrame), cs.Nodup →
      (cs.foldl perfStep d).cols = d.cols ++ cs.filter (fun c => c ∉ d.cols) := by
  intro cs
  induction cs with
  | nil => intro d _; simp
  | cons c t ih =>
      intro d hnd
      have hct : c ∉ t := (List.nodup_cons.mp hnd).1
      have hnd2 := (List.nodup_cons.mp hnd).2
      rw [List.foldl_cons, ih _ hnd2, perfStep_cols]
      by_cases hc : c ∈ d.cols
      · rw [if_pos hc]
        have hdrop : (c :: t).filter (fun x => x ∉ d.cols) = t.filter (fun x => x ∉ d.cols) := by
          rw [List.filter_cons]
          simp [hc]
        rw [hdrop]
      · rw [if_neg hc]
        have hfe : t.filter (fun x => x ∉ d.cols ++ [c]) = t.filter (fun x => x ∉ d.cols) := by
          refine List.filter_congr ?_
          intro x hx
          have hxc : x ≠ c := fun he => hct (he ▸ hx)
          simp [List.mem_append, hxc]
        have hkeep : (c :: t).filter (fun x => x ∉ d.cols) = c :: t.filter (fun x => x ∉ d.cols) := by
          rw [List.filter_cons]
          simp [hc]
        rw [hfe, hkeep, List.append_assoc, List.singleton_append]

theorem foldl_perfStep_colCells_mem :
    ∀ (cs : List String) (d : DFrame) (c : String), cs.Nodup → c ∈ cs →
      colCells (cs.foldl perfStep d) c
        = if c ∈ d.cols then (colCells d c).map toNumericCell
          else (colCells d c).map (fun _ => Cell.nan) := by
  intro cs
  induction cs with
  | nil => intro d c _ h; exact absurd h (List.not_mem_nil c)
  | cons c0 t ih =>
      intro d c hnd hc
      have hc0t : c0 ∉ t := (List.nodup_cons.mp hnd).1
      have hnd2 := (List.nodup_cons.mp hnd).2
      rw [List.foldl_cons]
      rcases List.mem_cons.mp hc with heq | hct
      · subst heq
        rw [foldl_perfStep_colCells_ne t _ c hc0t, colCells_perfStep_self]
      · have hcc0 : c ≠ c0 := fun he => hc0t (he ▸ hct)
        rw [ih _ c hnd2 hct, colCells_perfStep_ne d c0 hcc0]
        by_cases hdc : c ∈ d.cols
        · have h2 : c ∈ (perfStep d c0).cols := (mem_perfStep_cols d c0 c).mpr (Or.inl hdc)
          rw [if_pos hdc, if_pos h2]
        · have h2 : c ∉ (perfStep d c0).cols := by
            rw [mem_perfStep_cols]
            rintro (h | h)
            · exact hdc h
            · exact hcc0 h
          rw [if_neg hdc, if_neg h2]

/-! ## Facts about the loaded table -/

theorem load_data_ok_body {src df : DFrame} (h : load_data src = .ok df) :
    df = loadBody src ∧ required_columns.filter (fun c => c ∉ src.cols) = [] := by
  unfold load_data at h
  by_cases hm : required_columns.filter (fun c => c ∉ src.cols) = []
  · rw [if_neg (not_not_intro hm)] at h
    exact ⟨(Except.ok.inj h).symm, hm⟩
  · rw [if_pos hm] at h
    exact Except.noConfusion h

theorem load_data_required_mem {src df : DFrame} (h : load_data src = .ok df) :
    ∀ c ∈ required_columns, c ∈ src.cols := by
  have h2 := (load_data_ok_body h).2
  intro c hc
  have h3 := List.filter_eq_nil_iff.mp h2 c hc
  simpa using h3

theorem colCells_loadBody_att (src : DFrame) :
    colCells (loadBody src) "참석인원" = (colCells src "참석인원").map coerce0 := by
  unfold loadBody
  rw [foldl_optionalStep_colCells_ne _ _ _ (by decide),
    colCells_setCol_ne _ _ (by decide : ("참석인원" : String) ≠ "이수인원"),
    colCells_setCol_eq]
  have hne : ("참석인원" : String) ≠ "시작월" := by decide
  simp [DFrame.setCol, colCells, List.map_map, Function.comp_def, hne]

theorem colCells_loadBody_comp (src : DFrame) :
    colCells (loadBody src) "이수인원" = (colCells src "이수인원").map coerce0 := by
  unfold loadBody
  rw [foldl_optionalStep_colCells_ne _ _ _ (by decide), colCells_setCol_eq]
  have hne1 : ("이수인원" : String) ≠ "참석인원" := by decide
  have hne2 : ("이수인원" : String) ≠ "시작월" := by decide
  simp [DFrame.setCol, colCells, List.map_map, Function.comp_def, hne1, hne2]

theorem satisfaction_mem_loadBody_cols (src : DFrame) :
    "과정만족도" ∈ (loadBody src).cols := by
  unfold loadBody
  rw [foldl_optionalStep_mem_cols]
  right
  decide

theorem colCells_loadBody_satisfaction_absent (src : DFrame)
    (hreq : ∀ c ∈ required_columns, c ∈ src.cols) (h : "과정만족도" ∉ src.cols) :
    colCells (loadBody src) "과정만족도"
      = (colCells src "과정만족도").map (fun _ => Cell.num 0) := by
  unfold loadBody
  have e1 : ((src.setCol "시작월" (fun r => Cell.str (convert_month (r "시작월")))).setCol
      "참석인원" (fun r => coerce0 (r "참석인원"))).cols = src.cols := by
    rw [setCol_cols_of_mem, setCol_cols_of_mem]
    · exact hreq _ (by decide)
    · rw [setCol_cols_of_mem _ (hreq _ (by decide))]
      exact hreq _ (by decide)
  have e2 : (((src.setCol "시작월" (fun r => Cell.str (convert_month (r "시작월")))).setCol
      "참석인원" (fun r => coerce0 (r "참석인원"))).setCol
      "이수인원" (fun r => coerce0 (r "이수인원"))).cols = src.cols := by
    rw [setCol_cols_of_mem, e1]
    rw [e1]
    exact hreq _ (by decide)
  have habs : ("과정만족도" : String) ∉ (((src.setCol "시작월"
      (fun r => Cell.str (convert_month (r "시작월")))).setCol
      "참석인원" (fun r => coerce0 (r "참석인원"))).setCol
      "이수인원" (fun r => coerce0 (r "이수인원"))).cols := by
    rw [e2]
    exact h
  show colCells (List.foldl optionalStep _ (("과정만족도", (0 : ℚ)) :: [("현업적용율", 0), ("교육일수", 0), ("교육시간", 0)])) "과정만족도" = _
  rw [List.foldl_cons,
    foldl_optionalStep_colCells_ne _ _ _ (by decide),
    colCells_optionalStep_absent _ _ habs,
    colCells_setCol_ne _ _ (by decide : ("과정만족도" : String) ≠ "이수인원"),
    colCells_setCol_ne _ _ (by decide : ("과정만족도" : String) ≠ "참석인원"),
    colCells_setCol_ne _ _ (by decide : ("과정만족도" : String) ≠ "시작월")]

/-! ## Facts about the facet filter -/

theorem mem_facetFilter {d : DFrame} {c : String} {o : Option Cell} {r : String → Cell}
    (h : r ∈ (facetFilter d c o).rows) :
    r ∈ d.rows ∧ ∀ v, o = some v → r c = v := by
  cases o with
  | none => exact ⟨h, fun v hv => Option.noConfusion hv⟩
  | some v0 =>
      have h2 := List.mem_filter.mp h
      refine ⟨h2.1, fun v hv => ?_⟩
      have h3 : r c = v0 := by simpa using h2.2
      rw [h3]
      exact Option.some.inj hv

theorem facetFilter_length (d : DFrame) (c : String) (o : Option Cell) :
    (facetFilter d c o).rows.length ≤ d.rows.length := by
  cases o with
  | none => exact le_refl _
  | some v => exact List.length_filter_le _ _

theorem facetFilter_sublist (d : DFrame) (c : String) (o : Option Cell) :
    (facetFilter d c o).rows.Sublist d.rows := by
  cases o with
  | none => exact List.Sublist.refl _
  | some v => exact List.filter_sublist _

theorem groupbyAgg_sum_col (df : DFrame) (key m : String)
    (aggs : List (String × AggFun))
    (hne : m ≠ key) (hlk : List.lookup m aggs = some AggFun.sum) :
    cellsSum (colCells (groupbyAgg df key aggs) m) = nonNaNKeySum df key m := by
  rw [colCells_groupbyAgg_agg df key aggs hne hlk]
  simp only [applyAgg]
  rw [cellsSum_map_num]
  have h1 : ∀ k, cellsSum ((groupRows df key k).map (fun r => r m))
      = ((groupRows df key k).map (fun r => cellVal0 (r m))).sum := by
    intro k
    rw [cellsSum_eq_map_val, List.map_map]
    rfl
  rw [List.map_congr_left (fun k _ => h1 k)]
  have hpred : df.rows.filter (fun r => r key ≠ Cell.nan)
      = df.rows.filter (fun r => !(decide (r key = Cell.nan))) := by
    simp only [ne_eq, decide_not]
  have hgr : ∀ k ∈ groupKeys df key,
      groupRows df key k
        = (df.rows.filter (fun r => r key ≠ Cell.nan)).filter (fun r => r key = k) := by
    intro k hk
    have hknan : k ≠ Cell.nan := ((mem_groupKeys df key k).mp hk).2
    rw [hpred, groupRows]
    exact (filter_eq_filter_of_ne (fun r => r key) hknan df.rows).symm
  rw [List.map_congr_left (fun k hk => by rw [hgr k hk])]
  rw [nonNaNKeySum]
  refine sum_groups (fun r => cellVal0 (r m)) (fun r => r key) (groupKeys df key)
    (df.rows.filter (fun r => r key ≠ Cell.nan)) (nodup_groupKeys df key) ?_
  intro r hr
  have h3 := List.mem_filter.mp hr
  refine (mem_groupKeys df key _).mpr
    ⟨List.mem_map_of_mem (fun r => r key) h3.1, by simpa using h3.2⟩

/-- Dividing by an attendance cell holding 0 always yields NaN, whatever the
completion cell holds. -/
theorem rateCell_zero (x : Cell) : rateCell x (Cell.num 0) = Cell.nan := by
  cases x <;> simp [rateCell]

/-- A column has a positive non-NaN count iff some entry is not NaN. -/
theorem notnaCount_pos_iff (l : List Cell) :
    0 < notnaCount l ↔ ∃ v ∈ l, v ≠ Cell.nan := by
  simp [notnaCount, List.length_pos_iff_exists_mem, List.mem_filter]

/-! ## The claims -/

/-- C1, counterexample: the raw start-month label "13월" contains digits, yet
`convert_month` returns "2024-13", which does not match 2024-MM with MM in
01..12. -/
theorem C1_counterexample :
    extractDigits (pyStr (Cell.str "13월")) ≠ ""
    ∧ convert_month (Cell.str "13월") = "2024-13"
    ∧ "2024-13" ∉ monthPattern := by decide

/-- C1, amended: for every raw start-month value, if its string rendering has
no digits the normalization returns exactly "2024-01"; if it has digits the
result is "2024-" followed by the digit string zero-padded to width two —
this matches 2024-MM with MM in 01..12 exactly when the extracted digits
denote a month 1..12 in at most two characters, and can leave the pattern
otherwise (e.g. "2024-13"). -/
theorem C1_theorem (c : Cell) :
    (extractDigits (pyStr c) = "" → convert_month c = "2024-01")
    ∧ (extractDigits (pyStr c) ≠ "" →
        convert_month c = "2024-" ++ zfill2 (extractDigits (pyStr c)))
    ∧ (extractDigits (pyStr c) ∈ smallMonthStrs → convert_month c ∈ monthPattern) := by
  refine ⟨?_, ?_, ?_⟩
  · intro h
    simp [convert_month, h]
  · intro h
    simp [convert_month, h]
  · intro h
    have hne : extractDigits (pyStr c) ≠ "" := by
      intro he
      rw [he] at h
      exact absurd h (by decide)
    have h2 : convert_month c = "2024-" ++ zfill2 (extractDigits (pyStr c)) := by
      simp [convert_month, hne]
    rw [h2]
    have hall : ∀ s ∈ smallMonthStrs, ("2024-" ++ zfill2 s) ∈ monthPattern := by decide
    exact hall _ h

/-- C1, witness: "03월" extracts the digit string "03", and the normalized
month "2024-03" is in the pattern. -/
theorem C1_witness :
    extractDigits (pyStr (Cell.str "03월")) ∈ smallMonthStrs
    ∧ convert_month (Cell.str "03월") ∈ monthPattern :=
  ⟨by decide, (C1_theorem (Cell.str "03월")).2.2 (by decide)⟩

/-- C2, counterexample: on a filtered table whose two groups both have
attendance sum 0, the per-group completion rates of the course-type view and
of the manager view are NaN (pandas 0/0), not 0. -/
theorem C2_counterexample :
    colCells (course_type_data fdfB) "참석인원" = [Cell.num 0, Cell.num 0]
    ∧ colCells (course_type_data fdfB) "수료율" = [Cell.nan, Cell.nan]
    ∧ colCells (manager_data fdfB) "수료율" = [Cell.nan, Cell.nan]
    ∧ Cell.nan ≠ Cell.num 0 := by
  refine ⟨?_, ?_, ?_, by decide⟩
  · simp +decide [course_type_data, groupbyAgg, groupKeys, groupRows, sortCells, colCells,
      uniqueFirst, uniqueAux, fdfB, mkRow, DFrame.setCol, List.insertionSort,
      List.orderedInsert, cellLE, charListLe, pyStr, List.lookup, cellsSum, cellNum?,
      rateCell, applyAgg, List.filter, List.filterMap]
  · simp +decide [course_type_data, groupbyAgg, groupKeys, groupRows, sortCells, colCells,
      uniqueFirst, uniqueAux, fdfB, mkRow, DFrame.setCol, List.insertionSort,
      List.orderedInsert, cellLE, charListLe, pyStr, List.lookup, cellsSum, cellNum?,
      rateCell, applyAgg, List.filter, List.filterMap]
  · simp +decide [manager_data, groupbyAgg, groupKeys, groupRows, sortCells, colCells,
      uniqueFirst, uniqueAux, fdfB, mkRow, DFrame.setCol, List.insertionSort,
      List.orderedInsert, cellLE, charListLe, pyStr, List.lookup, cellsSum, cellNum?,
      rateCell, applyAgg, List.filter, List.filterMap]

/-- C2, amended: the overall KPI completion rate is guarded — an attendance
sum of 0 reports the rate 0 — but the per-group completion rates of the
course-type and manager views are unguarded: a group with attendance sum 0
gets a NaN (or infinite) rate, which flows to the chart. -/
theorem C2_theorem (fdf : DFrame) :
    (cellsSum (colCells fdf "참석인원") = 0 → completion_rate fdf = 0)
    ∧ (∀ r ∈ (course_type_data fdf).rows,
        r "참석인원" = Cell.num 0 → r "수료율" = Cell.nan)
    ∧ (∀ r ∈ (manager_data fdf).rows,
        r "참석인원" = Cell.num 0 → r "수료율" = Cell.nan) := by
  refine ⟨?_, ?_, ?_⟩
  · intro h
    simp [completion_rate, h]
  · intro r hr h0
    unfold course_type_data at hr
    simp only [DFrame.setCol] at hr
    obtain ⟨r0, hr0, rfl⟩ := List.mem_map.mp hr
    have hne : ("참석인원" : String) ≠ "수료율" := by decide
    have h0b : r0 "참석인원" = Cell.num 0 := by simpa [hne] using h0
    simp [h0b, rateCell_zero]
  · intro r hr h0
    unfold manager_data at hr
    simp only [DFrame.setCol] at hr
    obtain ⟨r0, hr0, rfl⟩ := List.mem_map.mp hr
    have hne : ("참석인원" : String) ≠ "수료율" := by decide
    have h0b : r0 "참석인원" = Cell.num 0 := by simpa [hne] using h0
    simp [h0b, rateCell_zero]

/-- C2, witness: the KPI guard fires on the all-zero-attendance table, giving
completion rate 0. -/
theorem C2_witness : completion_rate fdfB = 0 :=
  (C2_theorem fdfB).1 (by simp +decide [cellsSum, cellNum?, colCells, fdfB, mkRow])

/-- C3, counterexample: loading a source whose attendance entry is the number
-5 succeeds and keeps -5 — a negative value — in the attendance column. -/
theorem C3_counterexample :
    (load_data srcC).toOption.map (fun df => colCells df "참석인원")
      = some [Cell.num (-5)]
    ∧ ¬ ((-5 : ℚ) ≥ 0) := by
  refine ⟨by decide, by norm_num⟩

/-- C3, amended: after a successful load the attendance and completion
columns are the raw columns coerced pointwise: every value is numeric,
missing values and non-numeric strings become 0, and numeric inputs —
including negative ones — pass through unchanged (no lower bound is
enforced). -/
theorem C3_theorem (src df : DFrame) (h : load_data src = .ok df) :
    colCells df "참석인원" = (colCells src "참석인원").map coerce0
    ∧ colCells df "이수인원" = (colCells src "이수인원").map coerce0
    ∧ (∀ c : Cell, ∃ q : ℚ, coerce0 c = Cell.num q)
    ∧ coerce0 Cell.nan = Cell.num 0
    ∧ (∀ s, parseNumeric s = none → coerce0 (Cell.str s) = Cell.num 0)
    ∧ (∀ q, coerce0 (Cell.num q) = Cell.num q) := by
  have hb := (load_data_ok_body h).1
  subst hb
  refine ⟨colCells_loadBody_att src, colCells_loadBody_comp src, ?_, rfl, ?_, fun q => rfl⟩
  · intro c
    cases c with
    | num q => exact ⟨q, rfl⟩
    | nan => exact ⟨0, rfl⟩
    | str s =>
        cases hp : parseNumeric s with
        | none => exact ⟨0, by simp [coerce0, toNumericCell, hp, fillna0]⟩
        | some q => exact ⟨q, by simp [coerce0, toNumericCell, hp, fillna0]⟩
  · intro s hp
    simp [coerce0, toNumericCell, hp, fillna0]

/-- C3, witness: the coercion characterization applied to the concrete
negative-attendance source. -/
theorem C3_witness :
    colCells (loadBody srcC) "참석인원" = (colCells srcC "참석인원").map coerce0 :=
  (C3_theorem srcC (loadBody srcC) rfl).1

/-- C4, counterexample: with managers observed in the order "b", "a", the
manager aggregation emits its rows in ascending key order "a", "b" — pandas
groupby sorts every dimension — not in first-appearance order. -/
theorem C4_counterexample :
    colCells (manager_data fdfB) "담당자" = [Cell.str "a", Cell.str "b"]
    ∧ uniqueFirst (colCells fdfB "담당자") = [Cell.str "b", Cell.str "a"]
    ∧ ([Cell.str "a", Cell.str "b"] : List Cell) ≠ [Cell.str "b", Cell.str "a"] := by
  decide

/-- C4, amended: every aggregation emits exactly one output row per distinct
observed non-NaN key — its key column is duplicate-free and holds exactly
the observed values other than NaN, rows with a missing key belonging to no
group (pandas dropna default) — and for ALL four dimensions, the manager
dimension included, the rows are ordered ascending by the key's sort
order. -/
theorem C4_theorem (fdf : DFrame) :
    (colCells (monthly_data fdf) "시작월" = groupKeys fdf "시작월"
      ∧ colCells (category_data fdf) "카테고리1" = groupKeys fdf "카테고리1"
      ∧ colCells (course_type_data fdf) "과정유형" = groupKeys fdf "과정유형"
      ∧ colCells (manager_data fdf) "담당자" = groupKeys fdf "담당자")
    ∧ (∀ c, (groupKeys fdf c).Nodup
        ∧ List.Sorted cellLE (groupKeys fdf c)
        ∧ ∀ k, k ∈ groupKeys fdf c ↔ (k ∈ colCells fdf c ∧ k ≠ Cell.nan)) := by
  constructor
  · refine ⟨colCells_groupbyAgg_key fdf "시작월" _, colCells_groupbyAgg_key fdf "카테고리1" _,
      ?_, ?_⟩
    · unfold course_type_data
      rw [colCells_setCol_ne _ _ (by decide : ("과정유형" : String) ≠ "수료율")]
      exact colCells_groupbyAgg_key fdf "과정유형" _
    · unfold manager_data
      rw [colCells_setCol_ne _ _ (by decide : ("담당자" : String) ≠ "수료율")]
      exact colCells_groupbyAgg_key fdf "담당자" _
  · intro c
    exact ⟨nodup_groupKeys fdf c, sorted_groupKeys fdf c, fun k => mem_groupKeys fdf c k⟩

/-- C5, counterexample: running the dashboard on a source holding only the
seven required columns, the filtered table has 11 columns when filtering
completes but 16 columns after the aggregation section: the perf-metric loop
mutates the filtered table in place. -/
theorem C5_counterexample :
    (run_dashboard srcA selAll).map (fun d => d.filtered.cols)
      = some (required_columns ++ ["과정만족도", "현업적용율", "교육일수", "교육시간"])
    ∧ (run_dashboard srcA selAll).map (fun d => d.filteredFinal.cols)
      = some (required_columns ++ ["과정만족도", "현업적용율", "교육일수", "교육시간"]
          ++ ["교육내용", "교육방법", "긍정응답율", "과정NPS", "현업적용"])
    ∧ (required_columns ++ ["과정만족도", "현업적용율", "교육일수", "교육시간"] : List String)
      ≠ required_columns ++ ["과정만족도", "현업적용율", "교육일수", "교육시간"]
          ++ ["교육내용", "교육방법", "긍정응답율", "과정NPS", "현업적용"] := by
  refine ⟨by decide, by decide, by decide⟩

/-- C5, amended: filtering never mutates the loaded table — it computes a
sublist view — and no aggregation alters the filtered rows; but the
perf-metric loop that runs before the category aggregation mutates the
filtered table: it keeps the row count and every non-perf column unchanged
while appending exactly the perf columns that were absent (and re-coercing
the six perf columns). -/
theorem C5_theorem (df f : DFrame) (s : Selection) :
    (filtered_df df s).rows.Sublist df.rows
    ∧ (addPerf f).rows.length = f.rows.length
    ∧ (∀ c, c ∉ perf_cols → colCells (addPerf f) c = colCells f c)
    ∧ (addPerf f).cols = f.cols ++ perf_cols.filter (fun c => c ∉ f.cols) := by
  refine ⟨?_, foldl_perfStep_rows_length perf_cols f, ?_,
    foldl_perfStep_cols perf_cols f (by decide)⟩
  · unfold filtered_df
    exact (facetFilter_sublist _ _ _).trans ((facetFilter_sublist _ _ _).trans
      ((facetFilter_sublist _ _ _).trans (facetFilter_sublist _ _ _)))
  · intro c hc
    exact foldl_perfStep_colCells_ne perf_cols f c hc

/-- C5, witness: the attendance column of the filtered table survives the
perf-metric loop unchanged. -/
theorem C5_witness :
    colCells (addPerf fdfB) "참석인원" = colCells fdfB "참석인원" :=
  (C5_theorem fdfB fdfB selAll).2.2.1 "참석인원" (by decide)

/-- C6, counterexample: on a source without a satisfaction column, the
category-analysis view sees a satisfaction column of zeros — the loader
already injected it as 0, so the NaN injection of the perf loop never fires
for it — contradicting the claim that absent metric columns arrive as NaN. -/
theorem C6_counterexample :
    (run_dashboard srcA selAll).map (fun d => colCells d.filteredFinal "과정만족도")
      = some [Cell.num 0, Cell.num 0]
    ∧ Cell.num 0 ≠ Cell.nan := by
  refine ⟨by decide, by decide⟩

/-- C6, amended: for the five metrics other than satisfaction (content,
method, positive-response, NPS, application), a column absent from the
incoming frame is injected as all-NaN and a NaN entry stays NaN after the
coercion; satisfaction, being also a load-time optional column, is present
after every successful load and, when absent from the source, arrives as
all-zero, not NaN.  A 5-point-scale chart is drawn iff the column has at
least one non-NaN group value and a positive NaN-skipping sum; otherwise the
no-data message is shown. -/
theorem C6_theorem :
    (∀ (f : DFrame), ∀ c ∈ ["교육내용", "교육방법", "긍정응답율", "과정NPS", "현업적용"],
        (c ∉ f.cols → colCells (addPerf f) c = (colCells f c).map (fun _ => Cell.nan))
        ∧ (c ∈ f.cols → colCells (addPerf f) c = (colCells f c).map toNumericCell))
    ∧ toNumericCell Cell.nan = Cell.nan
    ∧ (∀ (src df : DFrame), load_data src = .ok df →
        "과정만족도" ∈ df.cols
        ∧ ("과정만족도" ∉ src.cols →
            colCells df "과정만족도" = (colCells src "과정만족도").map (fun _ => Cell.num 0)))
    ∧ (∀ (cd : DFrame) (c : String), c ∈ cd.cols →
        (score5_result cd c = .chart ↔
          ((∃ v ∈ colCells cd c, v ≠ Cell.nan) ∧ 0 < cellsSum (colCells cd c)))
        ∧ (score5_result cd c = .info ↔
          ¬ ((∃ v ∈ colCells cd c, v ≠ Cell.nan) ∧ 0 < cellsSum (colCells cd c)))) := by
  refine ⟨?_, rfl, ?_, ?_⟩
  · intro f c hc
    have hcp : c ∈ perf_cols := by
      have hsub : ∀ x ∈ (["교육내용", "교육방법", "긍정응답율", "과정NPS", "현업적용"] : List String),
          x ∈ perf_cols := by decide
      exact hsub c hc
    have hkey := foldl_perfStep_colCells_mem perf_cols f c (by decide) hcp
    constructor
    · intro habs
      rw [addPerf, hkey, if_neg habs]
    · intro hpres
      rw [addPerf, hkey, if_pos hpres]
  · intro src df h
    have hb := (load_data_ok_body h).1
    subst hb
    exact ⟨satisfaction_mem_loadBody_cols src,
      colCells_loadBody_satisfaction_absent src (load_data_required_mem h)⟩
  · intro cd c hc
    unfold score5_result
    rw [if_pos hc]
    by_cases hcond : 0 < notnaCount (colCells cd c) ∧ 0 < cellsSum (colCells cd c)
    · rw [if_pos hcond]
      constructor
      · constructor
        · intro _
          exact ⟨(notnaCount_pos_iff _).mp hcond.1, hcond.2⟩
        · intro _
          rfl
      · constructor
        · intro h2
          exact ChartResult.noConfusion h2
        · intro h2
          exact absurd ⟨(notnaCount_pos_iff _).mp hcond.1, hcond.2⟩ h2
    · rw [if_neg hcond]
      constructor
      · constructor
        · intro h2
          exact ChartResult.noConfusion h2
        · intro h2
          exact absurd ⟨(notnaCount_pos_iff _).mpr h2.1, h2.2⟩ hcond
      · constructor
        · intro _
          intro h2
          exact hcond ⟨(notnaCount_pos_iff _).mpr h2.1, h2.2⟩
        · intro _
          rfl

/-- C6, witness: on the perf-column-free table the content-score column is
injected as NaN. -/
theorem C6_witness :
    colCells (addPerf fdfB) "교육내용" = (colCells fdfB "교육내용").map (fun _ => Cell.nan) :=
  (C6_theorem.1 fdfB "교육내용" (by decide)).1 (by decide)

/-- C7: the filter is an exact-match intersection over the active facets:
with all four facets on "전체" it returns the loaded table unchanged, every
surviving row matches each active facet's selected value exactly, and the
filtered row count never exceeds the total. -/
theorem C7_theorem (df : DFrame) (s : Selection) :
    (s = ⟨none, none, none, none⟩ → filtered_df df s = df)
    ∧ (∀ r ∈ (filtered_df df s).rows,
        (∀ v, s.month = some v → r "시작월" = v)
        ∧ (∀ v, s.category1 = some v → r "카테고리1" = v)
        ∧ (∀ v, s.courseType = some v → r "과정유형" = v)
        ∧ (∀ v, s.manager = some v → r "담당자" = v))
    ∧ (filtered_df df s).rows.length ≤ df.rows.length := by
  refine ⟨?_, ?_, ?_⟩
  · rintro rfl
    rfl
  · intro r hr
    unfold filtered_df at hr
    have h4 := mem_facetFilter hr
    have h3 := mem_facetFilter h4.1
    have h2 := mem_facetFilter h3.1
    have h1 := mem_facetFilter h2.1
    exact ⟨h1.2, h2.2, h3.2, h4.2⟩
  · unfold filtered_df
    exact le_trans (facetFilter_length _ _ _) (le_trans (facetFilter_length _ _ _)
      (le_trans (facetFilter_length _ _ _) (facetFilter_length _ _ _)))

/-- C7, witness: on the concrete table, the all-"전체" selection returns the
table itself, and a month selection yields at most as many rows. -/
theorem C7_witness :
    filtered_df fdfB selAll = fdfB
    ∧ (filtered_df fdfB selMonth).rows.length ≤ fdfB.rows.length :=
  ⟨(C7_theorem fdfB selAll).1 rfl, (C7_theorem fdfB selMonth).2.2⟩

/-- C8: when any required column is missing, the load fails with an error
listing exactly the missing required names (those required and absent), no
table is produced, and for every selection the dashboard halts with no facet
domain, filter result or aggregate computed. -/
theorem C8_theorem (src : DFrame) (h : ∃ c ∈ required_columns, c ∉ src.cols) :
    load_data src = .error (required_columns.filter (fun c => c ∉ src.cols))
    ∧ required_columns.filter (fun c => c ∉ src.cols) ≠ []
    ∧ (∀ c, c ∈ required_columns.filter (fun c => c ∉ src.cols)
        ↔ (c ∈ required_columns ∧ c ∉ src.cols))
    ∧ (∀ s : Selection, run_dashboard src s = none) := by
  obtain ⟨c0, hc0, hn0⟩ := h
  have hne : required_columns.filter (fun c => c ∉ src.cols) ≠ [] := by
    intro he
    have hmem : c0 ∈ required_columns.filter (fun c => c ∉ src.cols) := by
      rw [List.mem_filter]
      exact ⟨hc0, by simpa using hn0⟩
    rw [he] at hmem
    exact List.not_mem_nil c0 hmem
  have hload : load_data src = .error (required_columns.filter (fun c => c ∉ src.cols)) := by
    unfold load_data
    rw [if_pos hne]
  refine ⟨hload, hne, ?_, ?_⟩
  · intro c
    rw [List.mem_filter]
    simp
  · intro s
    simp only [run_dashboard, hload]

/-- C8, witness: a source holding only the first two required columns fails
with exactly the other five names, and the dashboard yields nothing. -/
theorem C8_witness :
    load_data srcH = .error ["과정유형", "담당자", "과정명", "참석인원", "이수인원"]
    ∧ run_dashboard srcH selAll = none := by
  have h := C8_theorem srcH ⟨"과정유형", by decide, by decide⟩
  refine ⟨?_, h.2.2.2 selAll⟩
  rw [h.1]
  exact congrArg Except.error (by decide)

/-- C9, counterexample: on a filtered table whose second row has a blank
(NaN) manager cell, pandas groupby drops that row, so the sum of the
per-manager group attendance sums is 12 while the whole-table attendance sum
is 19. -/
theorem C9_counterexample :
    cellsSum (colCells (manager_data fdfN) "참석인원") = 12
    ∧ cellsSum (colCells fdfN "참석인원") = 19
    ∧ (12 : ℚ) ≠ 19 := by
  refine ⟨?_, ?_, by norm_num⟩
  · simp +decide [manager_data, groupbyAgg, groupKeys, groupRows, sortCells, colCells,
      uniqueFirst, uniqueAux, fdfN, mkRow, DFrame.setCol, List.insertionSort,
      List.orderedInsert, cellLE, charListLe, pyStr, List.lookup, cellsSum, cellNum?,
      rateCell, applyAgg, List.filter, List.filterMap]
  · simp +decide [colCells, fdfN, mkRow, cellsSum, cellNum?, List.filterMap]
    norm_num

/-- C9, amended: for every filtered table, every grouping dimension and each
summed metric (attendance, completion), the sum of the per-group sums equals
the sum of the metric over the rows whose group-key cell is not missing
(pandas drops NaN-keyed rows from the grouping); when no row has a missing
key in that dimension this equals the whole-table sum.  The perf-metric loop
does not change these column sums. -/
theorem C9_theorem (fdf : DFrame) (m : String) (hm : m ∈ ["참석인원", "이수인원"]) :
    cellsSum (colCells (monthly_data fdf) m) = nonNaNKeySum fdf "시작월" m
    ∧ cellsSum (colCells (category_data fdf) m) = nonNaNKeySum fdf "카테고리1" m
    ∧ cellsSum (colCells (course_type_data fdf) m) = nonNaNKeySum fdf "과정유형" m
    ∧ cellsSum (colCells (manager_data fdf) m) = nonNaNKeySum fdf "담당자" m
    ∧ (∀ key, (∀ r ∈ fdf.rows, r key ≠ Cell.nan) →
        nonNaNKeySum fdf key m = cellsSum (colCells fdf m))
    ∧ cellsSum (colCells (addPerf fdf) m) = cellsSum (colCells fdf m) := by
  have hfull : ∀ key, (∀ r ∈ fdf.rows, r key ≠ Cell.nan) →
      nonNaNKeySum fdf key m = cellsSum (colCells fdf m) := by
    intro key hall
    rw [nonNaNKeySum]
    have hfe : fdf.rows.filter (fun r => r key ≠ Cell.nan) = fdf.rows :=
      List.filter_eq_self.mpr (fun r hr => by simpa using hall r hr)
    rw [hfe, cellsSum_eq_map_val, colCells, List.map_map]
    rfl
  have hm2 : m = "참석인원" ∨ m = "이수인원" := by simpa using hm
  rcases hm2 with rfl | rfl
  · refine ⟨groupbyAgg_sum_col fdf "시작월" _ _ (by decide) rfl,
      groupbyAgg_sum_col fdf "카테고리1" _ _ (by decide) rfl, ?_, ?_, hfull, ?_⟩
    · unfold course_type_data
      rw [colCells_setCol_ne _ _ (by decide : ("참석인원" : String) ≠ "수료율")]
      exact groupbyAgg_sum_col fdf "과정유형" _ _ (by decide) rfl
    · unfold manager_data
      rw [colCells_setCol_ne _ _ (by decide : ("참석인원" : String) ≠ "수료율")]
      exact groupbyAgg_sum_col fdf "담당자" _ _ (by decide) rfl
    · rw [addPerf, foldl_perfStep_colCells_ne perf_cols fdf _ (by decide)]
  · refine ⟨groupbyAgg_sum_col fdf "시작월" _ _ (by decide) rfl,
      groupbyAgg_sum_col fdf "카테고리1" _ _ (by decide) rfl, ?_, ?_, hfull, ?_⟩
    · unfold course_type_data
      rw [colCells_setCol_ne _ _ (by decide : ("이수인원" : String) ≠ "수료율")]
      exact groupbyAgg_sum_col fdf "과정유형" _ _ (by decide) rfl
    · unfold manager_data
      rw [colCells_setCol_ne _ _ (by decide : ("이수인원" : String) ≠ "수료율")]
      exact groupbyAgg_sum_col fdf "담당자" _ _ (by decide) rfl
    · rw [addPerf, foldl_perfStep_colCells_ne perf_cols fdf _ (by decide)]

/-- C9, witness: on the NaN-free concrete table the monthly attendance
group sums add up to the whole-table attendance sum. -/
theorem C9_witness :
    cellsSum (colCells (monthly_data fdfB) "참석인원")
      = cellsSum (colCells fdfB "참석인원") := by
  have h := C9_theorem fdfB "참석인원" (by decide)
  rw [h.1]
  refine h.2.2.2.2.1 "시작월" ?_
  intro r hr
  rcases List.mem_cons.mp hr with h1 | hr2
  · subst h1
    decide
  · rcases List.mem_cons.mp hr2 with h1 | hr3
    · subst h1
      decide
    · exact absurd hr3 (List.not_mem_nil r)

/-- C10: the facet option domains the dashboard offers are computed from the
full loaded table before filtering, so any two selections over the same
source see identical option domains for all four facets. -/
theorem C10_theorem (src : DFrame) (s1 s2 : Selection) (d1 d2 : Dashboard)
    (h1 : run_dashboard src s1 = some d1) (h2 : run_dashboard src s2 = some d2) :
    d1.months = d2.months ∧ d1.categories1 = d2.categories1
    ∧ d1.course_types = d2.course_types ∧ d1.managers = d2.managers := by
  unfold run_dashboard at h1 h2
  cases hld : load_data src with
  | error e =>
      rw [hld] at h1
      exact Option.noConfusion h1
  | ok df =>
      rw [hld] at h1 h2
      have e1 := Option.some.inj h1
      have e2 := Option.some.inj h2
      rw [← e1, ← e2]
      exact ⟨rfl, rfl, rfl, rfl⟩

/-- C10, witness: on the concrete source, the all-"전체" selection and a
month selection offer the same manager options. -/
theorem C10_witness :
    (run_dashboard srcA selAll).map Dashboard.managers
      = (run_dashboard srcA selMonth).map Dashboard.managers := by
  obtain ⟨d1, h1⟩ : ∃ d, run_dashboard srcA selAll = some d := ⟨_, rfl⟩
  obtain ⟨d2, h2⟩ : ∃ d, run_dashboard srcA selMonth = some d := ⟨_, rfl⟩
  have h := C10_theorem srcA selAll selMonth d1 d2 h1 h2
  rw [h1, h2]
  simp [h.2.2.2]
